import Mathlib

/-!
# hss-inmem-db: the note store and its HTTP codec

A shallow embedding of `datasvc/service.go`, `datasvc/endpoints.go` and
`datasvc/transport.go`.

* Go's `map[string]Note` is a function `String → Option Note` (`none` = key absent).
* Go's `error` interface values are `Option GoError` (`none` = `nil`).
* `sync.RWMutex` is explicit state (shared holders, exclusive flag); an operation
  that would block on the mutex returns `none`.
* A panic is the `Except.error` branch of `Except Panic _`.
-/

namespace Datasvc

/-! ## service.go -/

/-- Go `type Note struct`, with the JSON keys `id`, `author`, `title`, `text`. -/
structure Note where
  ID : String
  Author : String
  Title : String
  Text : String
deriving DecidableEq, Repr

/-- The zero value `Note{}`. -/
def Note.zero : Note := { ID := "", Author := "", Title := "", Text := "" }

/-- Go error values. The four package-level sentinels are created once by
`errors.New` and compared by identity; `other msg` is any other error value,
with the text its `Error()` method returns. -/
inductive GoError where
  | ErrInconsistentIDs
  | ErrAlreadyExists
  | ErrNotFound
  | ErrBadRouting
  | other (msg : String)
deriving DecidableEq, Repr

/-- The method `Error()` of an error value. -/
def GoError.Error : GoError → String
  | .ErrInconsistentIDs => "inconsisent IDs"
  | .ErrAlreadyExists => "already exists"
  | .ErrNotFound => "not found"
  | .ErrBadRouting => "inconsistent mapping between route and handler (programming error)"
  | .other msg => msg

/-- State of a `sync.RWMutex`: how many shared holders, and whether it is held
exclusively. -/
structure RWMutex where
  readers : Nat
  writer : Bool
deriving DecidableEq, Repr

/-- Nobody holds the mutex. -/
def RWMutex.idle (mu : RWMutex) : Prop := mu.readers = 0 ∧ mu.writer = false

instance (mu : RWMutex) : Decidable mu.idle := by
  unfold RWMutex.idle; infer_instance

/-- `Lock()`: proceeds only when nobody holds the mutex, else blocks (`none`). -/
def RWMutex.Lock (mu : RWMutex) : Option RWMutex :=
  if mu.readers = 0 ∧ mu.writer = false then some { mu with writer := true } else none

/-- `Unlock()` of a mutex held exclusively. -/
def RWMutex.Unlock (mu : RWMutex) : RWMutex := { mu with writer := false }

/-- `RLock()`: proceeds unless the mutex is held exclusively, else blocks (`none`). -/
def RWMutex.RLock (mu : RWMutex) : Option RWMutex :=
  if mu.writer = false then some { mu with readers := mu.readers + 1 } else none

/-- Go `map[string]Note`. -/
abbrev NoteMap := String → Option Note

/-- The statement `m[k] = v`. -/
def NoteMap.set (m : NoteMap) (k : String) (v : Note) : NoteMap :=
  fun k' => if k' = k then some v else m k'

/-- The statement `delete(m, k)`. -/
def NoteMap.delete (m : NoteMap) (k : String) : NoteMap :=
  fun k' => if k' = k then none else m k'

/-- Go `type inmemService struct`. -/
structure inmemService where
  mtx : RWMutex
  m : NoteMap

/-- `NewInmemService`: an empty map and a fresh mutex. -/
def NewInmemService : inmemService :=
  { mtx := { readers := 0, writer := false }, m := fun _ => none }

/-- `inmemService.PostNote`: `Lock`, deferred `Unlock`, create without overwrite. -/
def PostNote (s : inmemService) (n : Note) : Option (inmemService × Option GoError) :=
  match s.mtx.Lock with
  | none => none
  | some mu =>
    match s.m n.ID with
    | some _ => some ({ mtx := mu.Unlock, m := s.m }, some .ErrAlreadyExists)
    | none => some ({ mtx := mu.Unlock, m := s.m.set n.ID n }, none)

/-- `inmemService.GetNote`: `RLock` and no unlock (the deferred unlock is commented
out in the source), then the lookup. -/
def GetNote (s : inmemService) (id : String) : Option (inmemService × Note × Option GoError) :=
  match s.mtx.RLock with
  | none => none
  | some mu =>
    match s.m id with
    | none => some ({ mtx := mu, m := s.m }, Note.zero, some .ErrNotFound)
    | some n => some ({ mtx := mu, m := s.m }, n, none)

/-- `inmemService.PutNote`: the ID check comes before the lock; then create or
overwrite. -/
def PutNote (s : inmemService) (id : String) (n : Note) : Option (inmemService × Option GoError) :=
  if id ≠ n.ID then some (s, some .ErrInconsistentIDs)
  else
    match s.mtx.Lock with
    | none => none
    | some mu => some ({ mtx := mu.Unlock, m := s.m.set id n }, none)

/-- `inmemService.PatchNote`: the ID check comes before the lock; an absent record
is not created; of the patch only a non-empty `Author` is copied. -/
def PatchNote (s : inmemService) (id : String) (n : Note) : Option (inmemService × Option GoError) :=
  if n.ID ≠ "" ∧ id ≠ n.ID then some (s, some .ErrInconsistentIDs)
  else
    match s.mtx.Lock with
    | none => none
    | some mu =>
      match s.m id with
      | none => some ({ mtx := mu.Unlock, m := s.m }, some .ErrNotFound)
      | some existing =>
        let existing := if n.Author ≠ "" then { existing with Author := n.Author } else existing
        some ({ mtx := mu.Unlock, m := s.m.set id existing }, none)

/-- `inmemService.DeleteNote`: `Lock`, deferred `Unlock`, remove when present. -/
def DeleteNote (s : inmemService) (id : String) : Option (inmemService × Option GoError) :=
  match s.mtx.Lock with
  | none => none
  | some mu =>
    match s.m id with
    | none => some ({ mtx := mu.Unlock, m := s.m }, some .ErrNotFound)
    | some _ => some ({ mtx := mu.Unlock, m := s.m.delete id }, none)

/-! ## endpoints.go -/

/-- Go `type postNoteRequest struct`. -/
structure postNoteRequest where
  Note : Note
deriving DecidableEq, Repr

/-- Go `type postNoteResponse struct`. -/
structure postNoteResponse where
  Err : Option GoError
deriving DecidableEq, Repr

/-- Go `type getNoteRequest struct`. -/
structure getNoteRequest where
  ID : String
deriving DecidableEq, Repr

/-- Go `type getNoteResponse struct`. -/
structure getNoteResponse where
  Note : Note
  Err : Option GoError
deriving DecidableEq, Repr

/-- Go `type putNoteRequest struct`. -/
structure putNoteRequest where
  ID : String
  Note : Note
deriving DecidableEq, Repr

/-- Go `type putNoteResponse struct`. -/
structure putNoteResponse where
  Err : Option GoError
deriving DecidableEq, Repr

/-- Go `type patchNoteRequest struct`. -/
structure patchNoteRequest where
  ID : String
  Note : Note
deriving DecidableEq, Repr

/-- Go `type patchNoteResponse struct`. -/
structure patchNoteResponse where
  Err : Option GoError
deriving DecidableEq, Repr

/-- Go `type deleteNoteRequest struct`. -/
structure deleteNoteRequest where
  ID : String
deriving DecidableEq, Repr

/-- Go `type deleteNoteResponse struct`. -/
structure deleteNoteResponse where
  Err : Option GoError
deriving DecidableEq, Repr

/-- Method `func (r postNoteResponse) error() error`. -/
def postNoteResponse.error (r : postNoteResponse) : Option GoError := r.Err

/-- Method `func (r getNoteResponse) error() error`. -/
def getNoteResponse.error (r : getNoteResponse) : Option GoError := r.Err

/-- Method `func (r putNoteResponse) error() error`: returns `nil`, whatever `r.Err` is. -/
def putNoteResponse.error (_r : putNoteResponse) : Option GoError := none

/-- Method `func (r patchNoteResponse) error() error`. -/
def patchNoteResponse.error (r : patchNoteResponse) : Option GoError := r.Err

/-- Method `func (r deleteNoteResponse) error() error`. -/
def deleteNoteResponse.error (r : deleteNoteResponse) : Option GoError := r.Err

/-- `MakePostNoteEndpoint(s)`: the business error goes into the response. -/
def MakePostNoteEndpoint (s : inmemService) (req : postNoteRequest) :
    Option (inmemService × postNoteResponse × Option GoError) :=
  (PostNote s req.Note).map fun r => (r.1, { Err := r.2 }, none)

/-- `MakeGetNoteEndpoint(s)`. -/
def MakeGetNoteEndpoint (s : inmemService) (req : getNoteRequest) :
    Option (inmemService × getNoteResponse × Option GoError) :=
  (GetNote s req.ID).map fun r => (r.1, { Note := r.2.1, Err := r.2.2 }, none)

/-- `MakePutNoteEndpoint(s)`. -/
def MakePutNoteEndpoint (s : inmemService) (req : putNoteRequest) :
    Option (inmemService × putNoteResponse × Option GoError) :=
  (PutNote s req.ID req.Note).map fun r => (r.1, { Err := r.2 }, none)

/-- `MakePatchNoteEndpoint(s)`. -/
def MakePatchNoteEndpoint (s : inmemService) (req : patchNoteRequest) :
    Option (inmemService × patchNoteResponse × Option GoError) :=
  (PatchNote s req.ID req.Note).map fun r => (r.1, { Err := r.2 }, none)

/-- `MakeDeleteNoteEndpoint(s)`. -/
def MakeDeleteNoteEndpoint (s : inmemService) (req : deleteNoteRequest) :
    Option (inmemService × deleteNoteResponse × Option GoError) :=
  (DeleteNote s req.ID).map fun r => (r.1, { Err := r.2 }, none)

/-- The five operations of the service. -/
inductive Operation where
  | post | get | put | patch | delete
deriving DecidableEq, Repr

/-- The `interface{}` value an endpoint hands to `encodeResponse`: one of the five
response structs. -/
inductive Response where
  | post (r : postNoteResponse)
  | get (r : getNoteResponse)
  | put (r : putNoteResponse)
  | patch (r : patchNoteResponse)
  | delete (r : deleteNoteResponse)
deriving DecidableEq, Repr

/-- The embedded `Err` field of a response. -/
def Response.Err : Response → Option GoError
  | .post r => r.Err
  | .get r => r.Err
  | .put r => r.Err
  | .patch r => r.Err
  | .delete r => r.Err

/-- Dynamic dispatch of the `errorer` method `error()`. -/
def Response.error : Response → Option GoError
  | .post r => r.error
  | .get r => r.error
  | .put r => r.error
  | .patch r => r.error
  | .delete r => r.error

/-- The response struct of operation `op` that carries `e` (and a zero note). -/
def Response.carrying (op : Operation) (e : Option GoError) : Response :=
  match op with
  | .post => .post { Err := e }
  | .get => .get { Note := Note.zero, Err := e }
  | .put => .put { Err := e }
  | .patch => .patch { Err := e }
  | .delete => .delete { Err := e }

/-! ## encoding/json, as far as the codec uses it -/

/-- A JSON document. -/
inductive JSON where
  | null
  | bool (b : Bool)
  | num (literal : String)
  | str (s : String)
  | arr (items : List JSON)
  | obj (members : List (String × JSON))

/-- The word Go uses for the kind of a JSON value in its error texts. -/
def JSON.kind : JSON → String
  | .null => "null"
  | .bool _ => "bool"
  | .num _ => "number"
  | .str _ => "string"
  | .arr _ => "array"
  | .obj _ => "object"

/-- An `UnmarshalTypeError` (the text is schematic). -/
def unmarshalTypeError (v : JSON) (goType : String) : GoError :=
  .other ("json: cannot unmarshal " ++ v.kind ++ " into Go value of type " ++ goType)

/-- `json.Marshal` of a `Note`: the four tagged fields in declaration order. -/
def marshalNote (n : Note) : JSON :=
  .obj [("id", .str n.ID), ("author", .str n.Author), ("title", .str n.Title),
        ("text", .str n.Text)]

/-- `json.Marshal` of a field `Err error` tagged `err,omitempty`: a nil interface is
omitted; an `errors.New` value is a pointer to a struct without exported fields
and marshals to the empty object. -/
def marshalErr (e : Option GoError) : List (String × JSON) :=
  match e with
  | none => []
  | some _ => [("err", .obj [])]

/-- `json.Marshal` of a response struct (`omitempty` never omits a struct). -/
def marshalResponse : Response → JSON
  | .post r => .obj (marshalErr r.Err)
  | .get r => .obj (("note", marshalNote r.Note) :: marshalErr r.Err)
  | .put r => .obj (marshalErr r.Err)
  | .patch r => .obj (marshalErr r.Err)
  | .delete r => .obj (marshalErr r.Err)

/-- Case-insensitive comparison of two JSON keys (ASCII folding). -/
def foldEq (a b : String) : Bool :=
  a.data.map Char.toLower == b.data.map Char.toLower

/-- The struct field a JSON key is decoded into: an exact match of the field's JSON
name first, a case-insensitive match otherwise. -/
def lookupField (fields : List String) (key : String) : Option String :=
  match fields.find? (fun f => f == key) with
  | some f => some f
  | none => fields.find? (fun f => foldEq f key)

/-- Decoding one JSON value into a Go `string` field: a string is stored, `null`
leaves the field alone, anything else is a type error (and leaves it alone). -/
def unmarshalString (old : String) (v : JSON) : String × Option GoError :=
  match v with
  | .str s => (s, none)
  | .null => (old, none)
  | v => (old, some (unmarshalTypeError v "string"))

/-- Keeps the first error, as `saveError` of Go's decoder does. -/
def saveError (saved new : Option GoError) : Option GoError :=
  match saved with
  | some e => some e
  | none => new

/-- One member `key: v` of an object decoded into a `Note`. -/
def unmarshalNoteMember (acc : Note × Option GoError) (kv : String × JSON) :
    Note × Option GoError :=
  match lookupField ["id", "author", "title", "text"] kv.1 with
  | none => acc
  | some f =>
    if f = "id" then
      let r := unmarshalString acc.1.ID kv.2
      ({ acc.1 with ID := r.1 }, saveError acc.2 r.2)
    else if f = "author" then
      let r := unmarshalString acc.1.Author kv.2
      ({ acc.1 with Author := r.1 }, saveError acc.2 r.2)
    else if f = "title" then
      let r := unmarshalString acc.1.Title kv.2
      ({ acc.1 with Title := r.1 }, saveError acc.2 r.2)
    else
      let r := unmarshalString acc.1.Text kv.2
      ({ acc.1 with Text := r.1 }, saveError acc.2 r.2)

/-- `json.Unmarshal` into a `Note` value: the members of an object are decoded in
order, unknown keys are skipped; `null` is a no-op; any other value is a type
error. -/
def unmarshalNote (into : Note) (v : JSON) : Note × Option GoError :=
  match v with
  | .obj members => members.foldl unmarshalNoteMember (into, none)
  | .null => (into, none)
  | v => (into, some (unmarshalTypeError v "datasvc.Note"))

/-- Decoding one JSON value into a field of interface type `error`: only `null` can
be stored in a non-empty interface. -/
def unmarshalErr (old : Option GoError) (v : JSON) : Option GoError × Option GoError :=
  match v with
  | .null => (none, none)
  | v => (old, some (unmarshalTypeError v "error"))

/-- One member of an object decoded into a struct whose only field is
`Err error` tagged `err`. -/
def unmarshalErrMember (acc : Option GoError × Option GoError) (kv : String × JSON) :
    Option GoError × Option GoError :=
  match lookupField ["err"] kv.1 with
  | none => acc
  | some _ =>
    let r := unmarshalErr acc.1 kv.2
    (r.1, saveError acc.2 r.2)

/-- `json.Unmarshal` into a struct whose only field is `Err error` tagged `err`. -/
def unmarshalErrOnly (into : Option GoError) (v : JSON) (goType : String) :
    Option GoError × Option GoError :=
  match v with
  | .obj members => members.foldl unmarshalErrMember (into, none)
  | .null => (into, none)
  | v => (into, some (unmarshalTypeError v goType))

/-- One member of an object decoded into a `getNoteResponse`. -/
def unmarshalGetMember (acc : getNoteResponse × Option GoError) (kv : String × JSON) :
    getNoteResponse × Option GoError :=
  match lookupField ["note", "err"] kv.1 with
  | none => acc
  | some f =>
    if f = "note" then
      let r := unmarshalNote acc.1.Note kv.2
      ({ acc.1 with Note := r.1 }, saveError acc.2 r.2)
    else
      let r := unmarshalErr acc.1.Err kv.2
      ({ acc.1 with Err := r.1 }, saveError acc.2 r.2)

/-- `json.Unmarshal` into a `getNoteResponse`. -/
def unmarshalGetNoteResponse (into : getNoteResponse) (v : JSON) :
    getNoteResponse × Option GoError :=
  match v with
  | .obj members => members.foldl unmarshalGetMember (into, none)
  | .null => (into, none)
  | v => (into, some (unmarshalTypeError v "datasvc.getNoteResponse"))

/-! ## net/url and the router, as far as the codec uses them -/

/-- The characters `url.QueryEscape` leaves alone: ASCII letters, digits and
`-`, `_`, `.`, `~`. -/
def unreserved (c : Char) : Bool :=
  c.isAlphanum || c == '-' || c == '_' || c == '.' || c == '~'

/-- An upper-case hexadecimal digit. -/
def upperhex (n : Nat) : Char :=
  "0123456789ABCDEF".data.getD n '0'

/-- `url.QueryEscape` on one character: kept when unreserved, `+` for a space,
otherwise `%XX` for each byte of its UTF-8 encoding. -/
def escapeChar (c : Char) : List Char :=
  if unreserved c then [c]
  else if c = ' ' then ['+']
  else (String.utf8EncodeChar c).flatMap fun b =>
    ['%', upperhex (b.toNat / 16), upperhex (b.toNat % 16)]

/-- `url.QueryEscape`. -/
def QueryEscape (s : String) : String :=
  String.mk (s.data.flatMap escapeChar)

/-- The part of an `http.Request` the codec reads and writes: the verb, `URL.Path`,
the JSON document in the body, and the route variables `mux.Vars` returns (empty
until the router has matched the request). -/
structure HTTPRequest where
  Method : String
  Path : String
  Body : JSON
  Vars : List (String × String)

/-- The route template `/notes/{id}`: the path is `/notes/` followed by one
non-empty segment without a slash, which becomes the variable `id`. -/
def matchNotesID (path : String) : Option String :=
  if "/notes/".data.isPrefixOf path.data then
    let seg := path.data.drop 7
    if seg ≠ [] ∧ ¬ '/' ∈ seg then some (String.mk seg) else none
  else none

/-- The routes of `MakeHTTPHandler`, tried in registration order; a route matches when
both its verb and its path template do. The result is the operation whose handler
runs and the request with the route variables attached; `none` when no route
matches. -/
def MakeHTTPHandler.route (r : HTTPRequest) : Option (Operation × HTTPRequest) :=
  if r.Method = "POST" ∧ r.Path = "/notes" then some (.post, r)
  else
    match matchNotesID r.Path with
    | none => none
    | some id =>
      if r.Method = "GET" then some (.get, { r with Vars := [("id", id)] })
      else if r.Method = "PUT" then some (.put, { r with Vars := [("id", id)] })
      else if r.Method = "PATCH" then some (.patch, { r with Vars := [("id", id)] })
      else if r.Method = "DELETE" then some (.delete, { r with Vars := [("id", id)] })
      else none

/-! ## transport.go -/

/-- `json.NewDecoder(r.Body).Decode(&v)` where `v` is a `Note` variable holding
`into`. -/
def decodeNoteBody (into : Note) (body : JSON) : Except GoError Note :=
  match unmarshalNote into body with
  | (n, none) => .ok n
  | (_, some e) => .error e

/-- `decodePostNoteRequest`: the body is decoded into `req.Note`. -/
def decodePostNoteRequest (r : HTTPRequest) : Except GoError postNoteRequest :=
  match decodeNoteBody Note.zero r.Body with
  | .error e => .error e
  | .ok n => .ok { Note := n }

/-- `decodeGetNoteRequest`. -/
def decodeGetNoteRequest (r : HTTPRequest) : Except GoError getNoteRequest :=
  match r.Vars.lookup "id" with
  | none => .error .ErrBadRouting
  | some id => .ok { ID := id }

/-- `decodePutNoteRequest`: `id` from the route, the note from the body. -/
def decodePutNoteRequest (r : HTTPRequest) : Except GoError putNoteRequest :=
  match r.Vars.lookup "id" with
  | none => .error .ErrBadRouting
  | some id =>
    match decodeNoteBody Note.zero r.Body with
    | .error e => .error e
    | .ok note => .ok { ID := id, Note := note }

/-- `decodePatchNoteRequest`: `id` from the route, the note from the body. -/
def decodePatchNoteRequest (r : HTTPRequest) : Except GoError patchNoteRequest :=
  match r.Vars.lookup "id" with
  | none => .error .ErrBadRouting
  | some id =>
    match decodeNoteBody Note.zero r.Body with
    | .error e => .error e
    | .ok note => .ok { ID := id, Note := note }

/-- `decodeDeleteNoteRequest`. -/
def decodeDeleteNoteRequest (r : HTTPRequest) : Except GoError deleteNoteRequest :=
  match r.Vars.lookup "id" with
  | none => .error .ErrBadRouting
  | some id => .ok { ID := id }

/-- `json.Marshal` of a `postNoteRequest`: its one field has no tag. -/
def marshalPostNoteRequest (r : postNoteRequest) : JSON :=
  .obj [("Note", marshalNote r.Note)]

/-- `json.Marshal` of a `putNoteRequest`: its two fields have no tags. -/
def marshalPutNoteRequest (r : putNoteRequest) : JSON :=
  .obj [("ID", .str r.ID), ("Note", marshalNote r.Note)]

/-- `json.Marshal` of a `patchNoteRequest`: its two fields have no tags. -/
def marshalPatchNoteRequest (r : patchNoteRequest) : JSON :=
  .obj [("ID", .str r.ID), ("Note", marshalNote r.Note)]

/-- `encodeRequest`: the marshalled request struct becomes the body (marshalling
these structs cannot fail). -/
def encodeRequest (req : HTTPRequest) (request : JSON) : Except GoError HTTPRequest :=
  .ok { req with Body := request }

/-- `encodePostNoteRequest`. -/
def encodePostNoteRequest (req : HTTPRequest) (request : postNoteRequest) :
    Except GoError HTTPRequest :=
  encodeRequest { req with Method := "POST", Path := "/notes/" } (marshalPostNoteRequest request)

/-- `encodePutNoteRequest`. -/
def encodePutNoteRequest (req : HTTPRequest) (r : putNoteRequest) :
    Except GoError HTTPRequest :=
  let noteID := QueryEscape r.ID
  encodeRequest { req with Method := "PUT", Path := "/notes/" ++ noteID } (marshalPutNoteRequest r)

/-- `encodePatchNoteRequest`. -/
def encodePatchNoteRequest (req : HTTPRequest) (r : patchNoteRequest) :
    Except GoError HTTPRequest :=
  let noteID := QueryEscape r.ID
  encodeRequest { req with Method := "PATCH", Path := "/notes/" ++ noteID }
    (marshalPatchNoteRequest r)

/-- The request `http.NewRequest(method, tgt.String(), nil)` the client hands to its
encoder: `tgt.Path` was set to the empty string by `MakeClientEndpoints`. -/
def NewRequest (method : String) : HTTPRequest :=
  { Method := method, Path := "", Body := .null, Vars := [] }

/-- `decodePostNoteResponse`: returns the response and the decoder's error. -/
def decodePostNoteResponse (body : JSON) : postNoteResponse × Option GoError :=
  let r := unmarshalErrOnly none body "datasvc.postNoteResponse"
  ({ Err := r.1 }, r.2)

/-- `decodeGetNoteResponse`: returns the response and the decoder's error. -/
def decodeGetNoteResponse (body : JSON) : getNoteResponse × Option GoError :=
  unmarshalGetNoteResponse { Note := Note.zero, Err := none } body

/-- `decodePutNoteResponse`: returns the response and the decoder's error. -/
def decodePutNoteResponse (body : JSON) : putNoteResponse × Option GoError :=
  let r := unmarshalErrOnly none body "datasvc.putNoteResponse"
  ({ Err := r.1 }, r.2)

/-- `decodePatchNoteResponse`: returns the response and the decoder's error. -/
def decodePatchNoteResponse (body : JSON) : patchNoteResponse × Option GoError :=
  let r := unmarshalErrOnly none body "datasvc.patchNoteResponse"
  ({ Err := r.1 }, r.2)

/-- `decodeDeleteNoteResponse`: returns the response and the decoder's error. -/
def decodeDeleteNoteResponse (body : JSON) : deleteNoteResponse × Option GoError :=
  let r := unmarshalErrOnly none body "datasvc.deleteNoteResponse"
  ({ Err := r.1 }, r.2)

/-- The client's decode-response function of operation `op`. -/
def decodeResponse (op : Operation) (body : JSON) : Response × Option GoError :=
  match op with
  | .post => let r := decodePostNoteResponse body; (.post r.1, r.2)
  | .get => let r := decodeGetNoteResponse body; (.get r.1, r.2)
  | .put => let r := decodePutNoteResponse body; (.put r.1, r.2)
  | .patch => let r := decodePatchNoteResponse body; (.patch r.1, r.2)
  | .delete => let r := decodeDeleteNoteResponse body; (.delete r.1, r.2)

/-- What a handler has written to its `http.ResponseWriter`: the header map, the
status code (`none` until it is sent) and the JSON documents of the body. -/
structure ResponseWriter where
  header : List (String × String)
  status : Option Nat
  body : List JSON

/-- A writer nothing has been written to. -/
def ResponseWriter.fresh : ResponseWriter := { header := [], status := none, body := [] }

/-- `w.Header().Set(k, v)`. -/
def ResponseWriter.Set (w : ResponseWriter) (k v : String) : ResponseWriter :=
  { w with header := (k, v) :: w.header.filter fun kv => kv.1 ≠ k }

/-- `w.WriteHeader(code)`: the first status code sent stands. -/
def ResponseWriter.WriteHeader (w : ResponseWriter) (code : Nat) : ResponseWriter :=
  match w.status with
  | none => { w with status := some code }
  | some _ => w

/-- `json.NewEncoder(w).Encode(v)`: a first write sends status 200 when no status has
been sent yet. -/
def ResponseWriter.Encode (w : ResponseWriter) (v : JSON) : ResponseWriter :=
  let w := w.WriteHeader 200
  { w with body := w.body ++ [v] }

/-- A Go panic: one raised by a `panic(msg)` statement, or the run-time error of a
method call through a nil interface. -/
inductive Panic where
  | explicit (msg : String)
  | nilDereference
deriving DecidableEq, Repr

/-- `codeFrom`: a `switch` on the identity of the error value. -/
def codeFrom (err : Option GoError) : Nat :=
  match err with
  | some .ErrNotFound => 404
  | some .ErrAlreadyExists => 400
  | some .ErrInconsistentIDs => 400
  | _ => 500

/-- The body `map[string]interface{}{"error": msg}` of an error answer. -/
def errorBody (msg : String) : JSON := .obj [("error", .str msg)]

/-- `encodeError`: the guard is `if err != nil`, and it panics; past the guard the
header and the status are written and `err.Error()` is called, which fails when
`err` is the nil interface. -/
def encodeError (err : Option GoError) (w : ResponseWriter) : Except Panic ResponseWriter :=
  if err ≠ none then .error (.explicit "encodeError with nil error")
  else
    let w := w.Set "Content-Type" "application/json; charset=utf-8"
    let w := w.WriteHeader (codeFrom err)
    match err with
    | none => .error .nilDereference
    | some e => .ok (w.Encode (errorBody e.Error))

/-- `encodeResponse`: a response whose `error()` is non-nil goes to `encodeError`,
any other is marshalled as the success body. The second component is the
returned `error`. -/
def encodeResponse (w : ResponseWriter) (response : Response) :
    Except Panic (ResponseWriter × Option GoError) :=
  match response.error with
  | some e =>
    match encodeError (some e) w with
    | .error p => .error p
    | .ok w => .ok (w, none)
  | none =>
    let w := w.Set "Content-Type" "application/json; charset=utf-8"
    .ok (w.Encode (marshalResponse response), none)

/-! ## Concrete inputs -/

/-- The note of the end-to-end example: `1`, `a`, `t`, `x`. -/
def note1 : Note := { ID := "1", Author := "a", Title := "t", Text := "x" }

/-- A store holding the single note `note1`, its mutex free. -/
def store1 : inmemService :=
  { mtx := { readers := 0, writer := false }, m := NoteMap.set (fun _ => none) "1" note1 }

/-! ## Shared lemmas on the mutex and the map -/

theorem RWMutex_eq_of_idle (mu : RWMutex) (h : mu.idle) :
    mu = { readers := 0, writer := false } := by
  obtain ⟨r, w⟩ := mu
  obtain ⟨h1, h2⟩ := h
  simp only at h1 h2
  subst h1 h2
  rfl

theorem inmemService_eq_of_idle (s : inmemService) (h : s.mtx.idle) :
    s = { mtx := { readers := 0, writer := false }, m := s.m } := by
  obtain ⟨mu, m⟩ := s
  simp only at h
  rw [RWMutex_eq_of_idle mu h]

theorem NoteMap.set_set (m : NoteMap) (k : String) (v : Note) :
    (m.set k v).set k v = m.set k v := by
  funext k'
  unfold NoteMap.set
  split <;> rfl

/-! ## The store while the mutex is free: create, replace, delete, partial update -/

/-- Create, with the mutex free: `PostNote n` on a store that already holds `n.ID` returns
`ErrAlreadyExists` and the store is unchanged; on a store that does not, it returns
no error and the new store maps `n.ID` to `n`, every other key as before. In
both cases a second `PostNote n` right after returns `ErrAlreadyExists`. -/
theorem PostNote_spec (s : inmemService) (n : Note) (h : s.mtx.idle) :
    ((∃ e, s.m n.ID = some e) → PostNote s n = some (s, some .ErrAlreadyExists)) ∧
    (s.m n.ID = none → ∃ s', PostNote s n = some (s', none) ∧ s'.m n.ID = some n ∧
      (∀ k, k ≠ n.ID → s'.m k = s.m k) ∧ s'.mtx = s.mtx) ∧
    (∃ s1 e1, PostNote s n = some (s1, e1) ∧
      PostNote s1 n = some (s1, some .ErrAlreadyExists)) := by
  have hs := inmemService_eq_of_idle s h
  obtain ⟨mu, m⟩ := s
  simp only [inmemService.mk.injEq, and_true] at hs
  subst hs
  have key : ∀ e, m n.ID = some e →
      PostNote { mtx := { readers := 0, writer := false }, m := m } n
        = some ({ mtx := { readers := 0, writer := false }, m := m }, some .ErrAlreadyExists) := by
    intro e he
    simp [PostNote, RWMutex.Lock, RWMutex.Unlock, he]
  refine ⟨fun ⟨e, he⟩ => key e he, ?_, ?_⟩
  · intro hn
    replace hn : m n.ID = none := hn
    refine ⟨{ mtx := { readers := 0, writer := false }, m := m.set n.ID n }, ?_, ?_, ?_, rfl⟩
    · simp [PostNote, RWMutex.Lock, RWMutex.Unlock, hn]
    · simp [NoteMap.set]
    · intro k hk
      simp [NoteMap.set, hk]
  · cases hn : m n.ID with
    | some e => exact ⟨_, _, key e hn, key e hn⟩
    | none =>
      refine ⟨{ mtx := { readers := 0, writer := false }, m := m.set n.ID n }, none, ?_, ?_⟩
      · simp [PostNote, RWMutex.Lock, RWMutex.Unlock, hn]
      · simp [PostNote, RWMutex.Lock, RWMutex.Unlock, NoteMap.set]

theorem PostNote_spec_witness :
    store1.mtx.idle ∧
    PostNote store1 { ID := "1", Author := "b", Title := "", Text := "" }
      = some (store1, some .ErrAlreadyExists) ∧
    ∃ s', PostNote store1 { ID := "2", Author := "b", Title := "", Text := "" } = some (s', none) ∧
      s'.m "2" = some { ID := "2", Author := "b", Title := "", Text := "" } ∧
      (∀ k, k ≠ "2" → s'.m k = store1.m k) ∧ s'.mtx = store1.mtx :=
  ⟨by decide,
   (PostNote_spec store1 { ID := "1", Author := "b", Title := "", Text := "" } (by decide)).1
     ⟨note1, by decide⟩,
   (PostNote_spec store1 { ID := "2", Author := "b", Title := "", Text := "" } (by decide)).2.1
     (by decide)⟩

/-- C2 (the code at the failing input): the store holds note `1` with title `t`; a patch
whose only non-empty field is the title `T2` succeeds, and the stored title is
still `t`. -/
theorem PatchNote_title_not_merged :
    (PatchNote store1 "1" { ID := "", Author := "", Title := "T2", Text := "" }).map
        (fun r => (r.1.m "1", r.2))
      = some (some { ID := "1", Author := "a", Title := "t", Text := "x" }, none) := by
  decide

/-- Replace: `PutNote id n` returns `ErrInconsistentIDs` with the store unchanged when
`n.ID ≠ id` (whoever holds the mutex); when `n.ID = id` and the mutex is free it
returns no error, the new store maps `id` to `n` with every other key as before,
and the same `PutNote` applied again returns no error and the same store. -/
theorem PutNote_spec (s : inmemService) (id : String) (n : Note) :
    (n.ID ≠ id → PutNote s id n = some (s, some .ErrInconsistentIDs)) ∧
    (n.ID = id → s.mtx.idle → ∃ s', PutNote s id n = some (s', none) ∧ s'.m id = some n ∧
      (∀ k, k ≠ id → s'.m k = s.m k) ∧ s'.mtx = s.mtx ∧
      PutNote s' id n = some (s', none)) := by
  constructor
  · intro hne
    have : id ≠ n.ID := fun e => hne e.symm
    simp [PutNote, this]
  · intro heq h
    have hs := inmemService_eq_of_idle s h
    obtain ⟨mu, m⟩ := s
    simp only [inmemService.mk.injEq, and_true] at hs
    subst hs
    subst heq
    refine ⟨{ mtx := { readers := 0, writer := false }, m := m.set n.ID n }, ?_, ?_, ?_, rfl, ?_⟩
    · simp [PutNote, RWMutex.Lock, RWMutex.Unlock]
    · simp [NoteMap.set]
    · intro k hk
      simp [NoteMap.set, hk]
    · simp [PutNote, RWMutex.Lock, RWMutex.Unlock, NoteMap.set_set]

theorem PutNote_spec_witness :
    store1.mtx.idle ∧
    PutNote store1 "2" { ID := "1", Author := "b", Title := "", Text := "" }
      = some (store1, some .ErrInconsistentIDs) ∧
    ∃ s', PutNote store1 "1" { ID := "1", Author := "b", Title := "", Text := "" }
        = some (s', none) ∧
      s'.m "1" = some { ID := "1", Author := "b", Title := "", Text := "" } ∧
      (∀ k, k ≠ "1" → s'.m k = store1.m k) ∧ s'.mtx = store1.mtx ∧
      PutNote s' "1" { ID := "1", Author := "b", Title := "", Text := "" } = some (s', none) :=
  ⟨by decide,
   (PutNote_spec store1 "2" { ID := "1", Author := "b", Title := "", Text := "" }).1
     (by decide),
   (PutNote_spec store1 "1" { ID := "1", Author := "b", Title := "", Text := "" }).2
     (by decide) (by decide)⟩

/-- Delete, with the mutex free: `DeleteNote id` returns `ErrNotFound` with the store
unchanged when `id` is absent, and otherwise returns no error and removes exactly
the key `id`. In both cases `GetNote id` right after returns the zero note and
`ErrNotFound`. `GetNote` of a present key returns the stored record and no error
(on any store whose mutex is not held exclusively). -/
theorem DeleteNote_spec (s : inmemService) (id : String) (h : s.mtx.idle) :
    (s.m id = none → DeleteNote s id = some (s, some .ErrNotFound)) ∧
    ((∃ e, s.m id = some e) → ∃ s', DeleteNote s id = some (s', none) ∧ s'.m id = none ∧
      (∀ k, k ≠ id → s'.m k = s.m k) ∧ s'.mtx = s.mtx) ∧
    (∃ s1 e1 s2, DeleteNote s id = some (s1, e1) ∧
      GetNote s1 id = some (s2, Note.zero, some .ErrNotFound)) ∧
    (∀ (t : inmemService) (k : String) (e : Note), t.mtx.writer = false → t.m k = some e →
      ∃ t', GetNote t k = some (t', e, none) ∧ t'.m = t.m) := by
  have hs := inmemService_eq_of_idle s h
  obtain ⟨mu, m⟩ := s
  simp only [inmemService.mk.injEq, and_true] at hs
  subst hs
  refine ⟨?_, ?_, ?_, ?_⟩
  · intro hn
    replace hn : m id = none := hn
    simp [DeleteNote, RWMutex.Lock, RWMutex.Unlock, hn]
  · rintro ⟨e, he⟩
    replace he : m id = some e := he
    refine ⟨{ mtx := { readers := 0, writer := false }, m := m.delete id }, ?_, ?_, ?_, rfl⟩
    · simp [DeleteNote, RWMutex.Lock, RWMutex.Unlock, he]
    · simp [NoteMap.delete]
    · intro k hk
      simp [NoteMap.delete, hk]
  · cases hn : m id with
    | none =>
      refine ⟨{ mtx := { readers := 0, writer := false }, m := m }, some .ErrNotFound,
        { mtx := { readers := 1, writer := false }, m := m }, ?_, ?_⟩
      · simp [DeleteNote, RWMutex.Lock, RWMutex.Unlock, hn]
      · simp [GetNote, RWMutex.RLock, hn]
    | some e =>
      refine ⟨{ mtx := { readers := 0, writer := false }, m := m.delete id }, none,
        { mtx := { readers := 1, writer := false }, m := m.delete id }, ?_, ?_⟩
      · simp [DeleteNote, RWMutex.Lock, RWMutex.Unlock, hn]
      · simp [GetNote, RWMutex.RLock, NoteMap.delete]
  · intro t k e hw he
    refine ⟨{ mtx := { readers := t.mtx.readers + 1, writer := t.mtx.writer }, m := t.m }, ?_, rfl⟩
    simp [GetNote, RWMutex.RLock, hw, he]

theorem DeleteNote_spec_witness :
    store1.mtx.idle ∧
    DeleteNote store1 "2" = some (store1, some .ErrNotFound) ∧
    ∃ s', DeleteNote store1 "1" = some (s', none) ∧ s'.m "1" = none ∧
      (∀ k, k ≠ "1" → s'.m k = store1.m k) ∧ s'.mtx = store1.mtx :=
  ⟨by decide,
   (DeleteNote_spec store1 "2" (by decide)).1 (by decide),
   (DeleteNote_spec store1 "1" (by decide)).2.1 ⟨note1, by decide⟩⟩

/-- Partial update, the error cases: `PatchNote id p` returns `ErrInconsistentIDs` when `p.ID` is non-empty and
differs from `id`, whatever the store holds and whoever holds the mutex; it
returns `ErrNotFound` when `p.ID` is empty or equal to `id` and `id` is absent
(mutex free); the store is unchanged in both cases; and no call of `PatchNote`
makes an absent key present. -/
theorem PatchNote_errors (s : inmemService) (id : String) (p : Note) :
    (p.ID ≠ "" ∧ p.ID ≠ id → PatchNote s id p = some (s, some .ErrInconsistentIDs)) ∧
    ((p.ID = "" ∨ p.ID = id) → s.m id = none → s.mtx.idle →
      PatchNote s id p = some (s, some .ErrNotFound)) ∧
    (∀ s' e, PatchNote s id p = some (s', e) → ∀ k, s.m k = none → s'.m k = none) := by
  refine ⟨?_, ?_, ?_⟩
  · rintro ⟨h1, h2⟩
    have : id ≠ p.ID := fun e => h2 e.symm
    simp [PatchNote, h1, this]
  · intro hid hn h
    have hs := inmemService_eq_of_idle s h
    obtain ⟨mu, m⟩ := s
    simp only [inmemService.mk.injEq, and_true] at hs
    subst hs
    have hc : ¬ (p.ID ≠ "" ∧ id ≠ p.ID) := by
      rintro ⟨h1, h2⟩
      rcases hid with h3 | h3
      · exact h1 h3
      · exact h2 h3.symm
    simp only at hn
    simp [PatchNote, hc, RWMutex.Lock, RWMutex.Unlock, hn]
  · intro s' e hp k hk
    unfold PatchNote at hp
    split at hp
    · simp only [Option.some.injEq, Prod.mk.injEq] at hp
      rw [← hp.1]; exact hk
    · split at hp
      · exact absurd hp (by simp)
      · split at hp
        · simp only [Option.some.injEq, Prod.mk.injEq] at hp
          rw [← hp.1]; exact hk
        · rename_i existing hex
          simp only [Option.some.injEq, Prod.mk.injEq] at hp
          rw [← hp.1]
          have hki : k ≠ id := by
            intro heq
            rw [heq, hex] at hk
            exact absurd hk (by simp)
          simp [NoteMap.set, hki, hk]

theorem PatchNote_errors_witness :
    PatchNote store1 "1" { ID := "2", Author := "b", Title := "", Text := "" }
      = some (store1, some .ErrInconsistentIDs) ∧
    PatchNote store1 "2" { ID := "", Author := "b", Title := "", Text := "" }
      = some (store1, some .ErrNotFound) :=
  ⟨(PatchNote_errors store1 "1" { ID := "2", Author := "b", Title := "", Text := "" }).1
     ⟨by decide, by decide⟩,
   (PatchNote_errors store1 "2" { ID := "", Author := "b", Title := "", Text := "" }).2.1
     (Or.inl (by decide)) (by decide) (by decide)⟩

/-! ## The HTTP codec -/

/-- C6 (the code at the failing input): `PutNote "1"` of a note whose ID is `2` makes the
endpoint answer a `putNoteResponse` carrying `ErrInconsistentIDs`; `encodeResponse`
writes it as status 200 with the marshalled response as success body, because
`putNoteResponse.error` returns nil. A `postNoteResponse` carrying
`ErrAlreadyExists` does reach `encodeError`, which panics. -/
theorem encodeResponse_put_error_is_success :
    (MakePutNoteEndpoint NewInmemService
        { ID := "1", Note := { ID := "2", Author := "a", Title := "t", Text := "x" } }).map
        (fun r => r.2)
      = some ({ Err := some .ErrInconsistentIDs }, none) ∧
    encodeResponse ResponseWriter.fresh (.put { Err := some .ErrInconsistentIDs })
      = .ok ({ header := [("Content-Type", "application/json; charset=utf-8")],
               status := some 200,
               body := [.obj [("err", .obj [])]] }, none) ∧
    encodeResponse ResponseWriter.fresh (.post { Err := some .ErrAlreadyExists })
      = .error (.explicit "encodeError with nil error") := by
  refine ⟨by decide, rfl, rfl⟩

/-- C7 (the code at every non-nil error): `encodeError` panics with the text
`encodeError with nil error` and writes nothing. -/
theorem encodeError_panics (e : GoError) (w : ResponseWriter) :
    encodeError (some e) w = .error (.explicit "encodeError with nil error") := by
  simp [encodeError]

/-- C8: `codeFrom` is 404 for `ErrNotFound`, 400 for `ErrAlreadyExists` and
`ErrInconsistentIDs`, and 500 for every other error value, `ErrBadRouting` and the
nil error among them. -/
theorem codeFrom_spec (err : Option GoError) :
    codeFrom err =
      (if err = some .ErrNotFound then 404
       else if err = some .ErrAlreadyExists ∨ err = some .ErrInconsistentIDs then 400
       else 500) ∧
    codeFrom (some .ErrBadRouting) = 500 := by
  refine ⟨?_, rfl⟩
  rcases err with _ | e
  · rfl
  · cases e <;> simp [codeFrom]

/-- C9 (the code at the failing input): for the note `1`, `a`, `t`, `x` the client's POST
request has the path `/notes/`, which no server route matches, and its body
decodes to the zero note; the client's PUT and PATCH requests for id `1` are
routed, and their bodies decode to a note with ID `1` and empty `Author`, `Title`
and `Text`. -/
theorem request_roundtrip_fails :
    (∃ r, encodePostNoteRequest (NewRequest "POST") { Note := note1 } = .ok r ∧
      r.Method = "POST" ∧ r.Path = "/notes/" ∧ (MakeHTTPHandler.route r).isNone = true ∧
      decodePostNoteRequest r = .ok { Note := Note.zero }) ∧
    (∃ r r', encodePutNoteRequest (NewRequest "PUT") { ID := "1", Note := note1 } = .ok r ∧
      r.Method = "PUT" ∧ r.Path = "/notes/1" ∧ MakeHTTPHandler.route r = some (.put, r') ∧
      decodePutNoteRequest r'
        = .ok { ID := "1", Note := { ID := "1", Author := "", Title := "", Text := "" } }) ∧
    (∃ r r', encodePatchNoteRequest (NewRequest "PATCH") { ID := "1", Note := note1 } = .ok r ∧
      r.Method = "PATCH" ∧ r.Path = "/notes/1" ∧ MakeHTTPHandler.route r = some (.patch, r') ∧
      decodePatchNoteRequest r'
        = .ok { ID := "1", Note := { ID := "1", Author := "", Title := "", Text := "" } }) := by
  refine ⟨⟨_, rfl, rfl, rfl, rfl, rfl⟩, ⟨_, _, rfl, rfl, rfl, rfl, rfl⟩,
    ⟨_, _, rfl, rfl, rfl, rfl, rfl⟩⟩

/-- C10 (the code at every error message): for each operation the client's decode-response
function, applied to the server's error body with message `m`, returns a nil
decode error together with the response whose `Err` is nil and whose note is the
zero note. -/
theorem decodeResponse_errorBody (op : Operation) (m : String) :
    decodeResponse op (errorBody m) = (Response.carrying op none, none) := by
  cases op <;> rfl

/-! ## The read path and the mutex -/

/-- C11 (the code at the failing input): the mutex `GetNote` leaves behind is the one
`RLock` returned, on every store and id: the shared lock is never released. On
the empty store `GetNote "1"` returns `ErrNotFound` and leaves one shared holder
where there was none, and on the store holding note `1` it returns the note and
leaves one shared holder too; in both cases a following `PostNote` cannot take
the exclusive lock. -/
theorem GetNote_keeps_shared_lock :
    (∀ (s : inmemService) (id : String),
      (GetNote s id).map (fun r => r.1.mtx) = s.mtx.RLock) ∧
    (∃ s', GetNote NewInmemService "1" = some (s', Note.zero, some .ErrNotFound) ∧
      NewInmemService.mtx = { readers := 0, writer := false } ∧
      s'.mtx = { readers := 1, writer := false } ∧ PostNote s' note1 = none) ∧
    (∃ s', GetNote store1 "1" = some (s', note1, none) ∧
      store1.mtx = { readers := 0, writer := false } ∧
      s'.mtx = { readers := 1, writer := false } ∧ PostNote s' note1 = none) := by
  refine ⟨?_, ⟨_, rfl, rfl, rfl, rfl⟩, ⟨_, rfl, rfl, rfl, rfl⟩⟩
  intro s id
  unfold GetNote
  cases s.mtx.RLock with
  | none => rfl
  | some mu => cases s.m id <;> rfl

/-! ## The writers after a read -/

/-- Once `RLock` has been taken, `Lock` blocks. -/
theorem RWMutex.Lock_after_RLock (mu mu' : RWMutex) (h : mu.RLock = some mu') :
    mu'.Lock = none := by
  unfold RWMutex.RLock at h
  split at h
  · simp only [Option.some.injEq] at h
    subst h
    simp [RWMutex.Lock]
  · exact absurd h (by simp)

/-- The mutex of the store a returning `GetNote` leaves behind cannot be locked. -/
theorem GetNote_then_Lock (s : inmemService) (id : String)
    (r : inmemService × Note × Option GoError) (h : GetNote s id = some r) :
    r.1.mtx.Lock = none := by
  unfold GetNote at h
  cases hl : s.mtx.RLock with
  | none => rw [hl] at h; exact absurd h (by simp)
  | some mu =>
    rw [hl] at h
    have hmu := RWMutex.Lock_after_RLock s.mtx mu hl
    cases hm : s.m id with
    | none =>
      rw [hm] at h
      simp only [Option.some.injEq] at h
      subst h
      exact hmu
    | some n =>
      rw [hm] at h
      simp only [Option.some.injEq] at h
      subst h
      exact hmu

/-- C1 (the code at the failing input): on the empty store `PostNote note1` succeeds and
`GetNote "1"` returns the note. The store then holds key `1` and not key `2`, and
`PostNote note1` does not return `ErrAlreadyExists` but blocks on the mutex; so
does `PostNote` of a note with the new key `2`, which is not inserted. On every
store, a `PostNote` that follows a returning `GetNote` blocks. -/
theorem PostNote_blocks_after_GetNote :
    (∃ s1 s2, PostNote NewInmemService note1 = some (s1, none) ∧
      GetNote s1 "1" = some (s2, note1, none) ∧
      s2.m "1" = some note1 ∧ s2.m "2" = none ∧
      PostNote s2 note1 = none ∧
      PostNote s2 { ID := "2", Author := "b", Title := "", Text := "" } = none) ∧
    (∀ (s : inmemService) (id : String) (n : Note),
      (GetNote s id).bind (fun r => PostNote r.1 n) = none) := by
  refine ⟨⟨_, _, rfl, rfl, rfl, rfl, rfl, rfl⟩, ?_⟩
  intro s id n
  cases h : GetNote s id with
  | none => rfl
  | some r => simp [PostNote, GetNote_then_Lock s id r h]

/-- C3 (the code at the failing input): on the empty store `PostNote note1` succeeds and
`GetNote "1"` returns the note. `PutNote "1"` of a note whose ID is `1` then does
not store the note but blocks on the mutex. On every store, a `PutNote` with
matching ID that follows a returning `GetNote` blocks. -/
theorem PutNote_blocks_after_GetNote :
    (∃ s1 s2, PostNote NewInmemService note1 = some (s1, none) ∧
      GetNote s1 "1" = some (s2, note1, none) ∧
      PutNote s2 "1" { ID := "1", Author := "b", Title := "", Text := "" } = none) ∧
    (∀ (s : inmemService) (id : String) (n : Note),
      (GetNote s id).bind (fun r => PutNote r.1 n.ID n) = none) := by
  refine ⟨⟨_, _, rfl, rfl, rfl⟩, ?_⟩
  intro s id n
  cases h : GetNote s id with
  | none => rfl
  | some r => simp [PutNote, GetNote_then_Lock s id r h]

/-- C4 (the code at the failing input): on the empty store `PostNote note1` succeeds and
`GetNote "1"` returns the note. The store then holds key `1` and not key `2`;
`DeleteNote "1"` does not remove the key and `DeleteNote "2"` does not return
`ErrNotFound`: both block on the mutex. On every store, a `DeleteNote` that
follows a returning `GetNote` blocks. -/
theorem DeleteNote_blocks_after_GetNote :
    (∃ s1 s2, PostNote NewInmemService note1 = some (s1, none) ∧
      GetNote s1 "1" = some (s2, note1, none) ∧
      s2.m "1" = some note1 ∧ s2.m "2" = none ∧
      DeleteNote s2 "1" = none ∧ DeleteNote s2 "2" = none) ∧
    (∀ (s : inmemService) (id k : String),
      (GetNote s id).bind (fun r => DeleteNote r.1 k) = none) := by
  refine ⟨⟨_, _, rfl, rfl, rfl, rfl, rfl, rfl⟩, ?_⟩
  intro s id k
  cases h : GetNote s id with
  | none => rfl
  | some r => simp [DeleteNote, GetNote_then_Lock s id r h]

/-- C5 (the code at the failing input): on the empty store `GetNote "2"` returns
`ErrNotFound` and the store still has no key `2`. `PatchNote "2"` of a patch with
an empty ID, and of a patch with ID `2`, then does not return `ErrNotFound` but
blocks on the mutex. On every store, a `PatchNote` whose patch carries the id
itself blocks when it follows a returning `GetNote`. -/
theorem PatchNote_blocks_after_GetNote :
    (∃ s1, GetNote NewInmemService "2" = some (s1, Note.zero, some .ErrNotFound) ∧
      s1.m "2" = none ∧
      PatchNote s1 "2" { ID := "", Author := "b", Title := "", Text := "" } = none ∧
      PatchNote s1 "2" { ID := "2", Author := "b", Title := "", Text := "" } = none) ∧
    (∀ (s : inmemService) (id : String) (p : Note),
      (GetNote s id).bind (fun r => PatchNote r.1 p.ID p) = none) := by
  refine ⟨⟨_, rfl, rfl, rfl, rfl⟩, ?_⟩
  intro s id p
  cases h : GetNote s id with
  | none => rfl
  | some r => simp [PatchNote, GetNote_then_Lock s id r h]

end Datasvc
